import Mathlib

/-!
Shallow embedding of `src/odm/feature_extractor/normalizations.py` (class
`Normalize`): pixel extraction from heterogeneous image-like inputs, and
min-max normalization of pixel arrays.

Modelling conventions:
* Pixel values are exact rationals.  A numpy floating value is modelled as
  `Flt := Option ℚ`, where `none` stands for a non-finite value (NaN or
  infinity, as produced by an unguarded division by zero); rounding of
  floating-point arithmetic is idealised to exact rational arithmetic.
* A numpy ndarray is a dtype tag, a shape (list of dimension sizes) and the
  row-major flat list of its entries.
* Python exceptions are modelled with `Except NormError`; `TypeError` on an
  unknown image type becomes `NormError.unsupportedType` (carrying the
  offending type name) and `ValueError("Invalid normalization type")` becomes
  `NormError.invalidNormalizationType`.  `np.max` / `np.min` on a zero-size
  array raise, modelled by `NormError.emptyReduction`; iterating a 0-d array
  raises, modelled by `NormError.iterationOverZeroD`.
* The `timing` flag only emits log records in the source and never affects
  the returned value, so it is dropped from the pure embedding.
* A second, reference-passing embedding (`Heap`, `minmax_helper_ref`,
  `extract_pixels_ref`) makes array identity explicit in order to state the
  frame property that inputs are never mutated and outputs are fresh copies.
-/

deriving instance DecidableEq for Except

/-- Python `str.lower()` on one ASCII character. -/
def lowerChar (c : Char) : Char :=
  if c.isUpper then Char.ofNat (c.toNat + 32) else c

/-- Python `str.lower()` (the inputs of interest are ASCII). -/
def pyLower (s : String) : String :=
  String.mk (s.data.map lowerChar)

/-- Numpy dtype tags (only the tag is tracked; values are exact rationals). -/
inductive DType where
  | uint8
  | int16
  | int32
  | int64
  | float32
  | float64
  deriving DecidableEq, Repr

/-- A floating value: `some q` is the finite value `q`, `none` is a
non-finite value (NaN or infinity). -/
abbrev Flt := Option ℚ

/-- Subtraction with NaN propagation. -/
def fsub : Flt → Flt → Flt
  | some a, some b => some (a - b)
  | _, _ => none

/-- Division: a zero divisor produces a non-finite value (NaN/Inf), as IEEE
division by zero does; NaN operands propagate. -/
def fdiv : Flt → Flt → Flt
  | some a, some b => if b = 0 then none else some (a / b)
  | _, _ => none

/-- Multiplication with NaN propagation. -/
def fmul : Flt → Flt → Flt
  | some a, some b => some (a * b)
  | _, _ => none

/-- Binary maximum as `np.max` reduces with: NaN operands propagate. -/
def fmax : Flt → Flt → Flt
  | some a, some b => some (max a b)
  | _, _ => none

/-- Binary minimum as `np.min` reduces with: NaN operands propagate. -/
def fmin : Flt → Flt → Flt
  | some a, some b => some (min a b)
  | _, _ => none

/-- Two's-complement wrap of an integer value into a signed `w`-bit dtype,
as numpy scalar subtraction overflows (a non-integer rational cannot occur
in an integer-dtype array and is left unchanged). -/
def intWrapS (w : Nat) (x : ℚ) : ℚ :=
  if x.den = 1 then (((x.num + 2 ^ (w - 1)) % 2 ^ w - 2 ^ (w - 1) : ℤ) : ℚ) else x

/-- Wrap of an integer value into an unsigned `w`-bit dtype. -/
def intWrapU (w : Nat) (x : ℚ) : ℚ :=
  if x.den = 1 then ((x.num % 2 ^ w : ℤ) : ℚ) else x

/-- Numpy scalar subtraction `a - b` carried out in dtype `dt`: exact for
floating dtypes (idealised), wrapping on overflow for integer dtypes. -/
def DType.subWrap : DType → ℚ → ℚ → ℚ
  | .uint8, a, b => intWrapU 8 (a - b)
  | .int16, a, b => intWrapS 16 (a - b)
  | .int32, a, b => intWrapS 32 (a - b)
  | .int64, a, b => intWrapS 64 (a - b)
  | .float32, a, b => a - b
  | .float64, a, b => a - b

/-- Subtraction of two numpy scalars of dtype `dt` (NaN propagates): this
is how `max_val - min_val` is computed at normalizations.py line 87, where
both operands carry the input array's dtype. -/
def fsubD (dt : DType) : Flt → Flt → Flt
  | some a, some b => some (DType.subWrap dt a b)
  | _, _ => none

/-- A numpy ndarray: dtype tag, shape, and the row-major flat entry list. -/
structure PixelArray where
  dtype : DType
  shape : List Nat
  data : List Flt
  deriving DecidableEq, Repr

/-- Errors of the module (Python exception classes). -/
inductive NormError where
  | unsupportedType (typeName : String)
  | invalidNormalizationType
  | emptyReduction
  | iterationOverZeroD
  | danglingRef
  deriving DecidableEq, Repr

/-- `np.max(pixels)`: reduction over all entries; raises on a zero-size
array. -/
def npMax (p : PixelArray) : Except NormError Flt :=
  match p.data with
  | [] => .error .emptyReduction
  | x :: xs => .ok (xs.foldl fmax x)

/-- `np.min(pixels)`: reduction over all entries; raises on a zero-size
array. -/
def npMin (p : PixelArray) : Except NormError Flt :=
  match p.data with
  | [] => .error .emptyReduction
  | x :: xs => .ok (xs.foldl fmin x)

/-- One image-like input value (normalizations.py lines 38-51 discriminate
these cases at runtime): a raw `np.ndarray`, a `types.SimpleNamespace`
carrying a `pixels` field, a `pydicom` `FileDataset` carrying a
`pixel_array`, or any other value (only its type name matters then). -/
inductive ImageLike where
  | ndarray (a : PixelArray)
  | simpleNamespace (pixels : PixelArray)
  | fileDataset (pixel_array : PixelArray)
  | other (typeName : String)

/-- The `images` argument of `extract_pixels`: a Python `list` or a single
value. -/
inductive Images where
  | single (i : ImageLike)
  | list (l : List ImageLike)

namespace Normalize

/-- The per-element branch of the `for image in images` loop of
`Normalize.extract_pixels` (normalizations.py lines 39-51). -/
def extractOne : ImageLike → Except NormError PixelArray
  | .ndarray a => .ok a
  | .simpleNamespace p => .ok p
  | .fileDataset d => .ok d
  | .other t => .error (.unsupportedType t)

/-- The `for image in images` loop: stops at the first unsupported element,
as the Python loop raises there. -/
def extractList : List ImageLike → Except NormError (List PixelArray)
  | [] => .ok []
  | i :: is =>
    match extractOne i with
    | .error e => .error e
    | .ok p =>
      match extractList is with
      | .error e => .error e
      | .ok ps => .ok (p :: ps)

/-- `Normalize.extract_pixels(images)` (normalizations.py lines 36-65).
A list input is handled element by element (raw arrays, namespaces and
datasets accepted); a single non-list input is wrapped as a one-element
list only when it is a raw array or a namespace — a bare `FileDataset`
falls through to the `else` branch and raises `TypeError`, like any other
unsupported value. -/
def extract_pixels : Images → Except NormError (List PixelArray)
  | .list l => extractList l
  | .single (.ndarray a) => .ok [a]
  | .single (.simpleNamespace p) => .ok [p]
  | .single (.fileDataset _) => .error (.unsupportedType "FileDataset")
  | .single (.other t) => .error (.unsupportedType t)

/-- `Normalize._minmax_helper(pixels, bins=bins)` (normalizations.py lines
82-89): `bins` from kwargs (default 256), `max_val`, `min_val` over the
whole array, `astype(np.float32).copy()` (dtype becomes float32; values
idealised as unchanged), then in place `-= min_val` (float arithmetic on
the float32 copy), `/= max_val - min_val` (the divisor is a scalar
subtraction in the input's dtype, wrapping on integer overflow),
`*= bins - 1`. -/
def minmax_helper (pixels : PixelArray) (bins : ℤ) : Except NormError PixelArray :=
  match npMax pixels with
  | .error e => .error e
  | .ok max_val =>
    match npMin pixels with
    | .error e => .error e
    | .ok min_val =>
      let d1 := pixels.data.map (fun v => fsub v min_val)
      let d2 := d1.map (fun v => fdiv v (fsubD pixels.dtype max_val min_val))
      let d3 := d2.map (fun v => fmul v (some ((bins : ℚ) - 1)))
      .ok ⟨DType.float32, pixels.shape, d3⟩

/-- The `pixels` argument of `Normalize.minmax`: a Python `list` of arrays
or a single ndarray. -/
inductive Pixels where
  | array (a : PixelArray)
  | list (l : List PixelArray)

/-- `d` chunks of `k` consecutive entries each, from a row-major entry
list: the slices of an ndarray along its first axis. -/
def chunks (k : Nat) : Nat → List Flt → List (List Flt)
  | 0, _ => []
  | Nat.succ d, l => l.take k :: chunks k d (l.drop k)

/-- What `for p in pixels` iterates over in `Normalize.minmax`
(normalizations.py line 117): the elements of a list, or the first-axis
slices of an ndarray (iterating a 0-d ndarray raises `TypeError`). -/
def iterate : Pixels → Except NormError (List PixelArray)
  | .list l => .ok l
  | .array a =>
    match a.shape with
    | [] => .error .iterationOverZeroD
    | d :: rest => .ok ((chunks rest.prod d a.data).map (fun c => ⟨a.dtype, rest, c⟩))

/-- The list comprehension `[Normalize._minmax_helper(p, **kwargs) for p in
pixels]`: stops at the first failing element. -/
def mapHelper (bins : ℤ) : List PixelArray → Except NormError (List PixelArray)
  | [] => .ok []
  | p :: ps =>
    match minmax_helper p bins with
    | .error e => .error e
    | .ok r =>
      match mapHelper bins ps with
      | .error e => .error e
      | .ok rs => .ok (r :: rs)

/-- `Normalize.minmax(pixels, **kwargs)` (normalizations.py lines 91-121):
normalizes each iterated element independently and returns the pair of the
normalized list and the always-`None` auxiliary slot. -/
def minmax (pixels : Pixels) (bins : ℤ) : Except NormError (List PixelArray × Option Unit) :=
  match iterate pixels with
  | .error e => .error e
  | .ok ps =>
    match mapHelper bins ps with
    | .error e => .error e
    | .ok rs => .ok (rs, none)

/-- The dictionary `{"minmax": Normalize.minmax, "min-max":
Normalize.minmax}.get(...)` (normalizations.py lines 154-156). -/
def normRegistry (s : String) : Option (Pixels → ℤ → Except NormError (List PixelArray × Option Unit)) :=
  if s = "minmax" then some minmax
  else if s = "min-max" then some minmax
  else none

/-- `Normalize.get_norm(pixels, norm_type, **kwargs)` (normalizations.py
lines 123-165): extracts pixels first, then looks the norm type up
case-insensitively and dispatches, returning the normalized list paired
with `None`. -/
def get_norm (images : Images) (norm_type : String) (bins : ℤ) :
    Except NormError (List PixelArray × Option Unit) :=
  match extract_pixels images with
  | .error e => .error e
  | .ok pixels =>
    match normRegistry (pyLower norm_type) with
    | none => .error .invalidNormalizationType
    | some f =>
      match f (.list pixels) bins with
      | .error e => .error e
      | .ok (normalized, _) => .ok (normalized, none)

end Normalize

/-! ### Reference-passing embedding for the frame (no-mutation) property -/

/-- A heap of allocated arrays, addressed by numeric references. -/
abbrev Heap := List (Nat × PixelArray)

/-- Look a reference up in the heap. -/
def Heap.lookup : Heap → Nat → Option PixelArray
  | [], _ => none
  | e :: h, k => if e.1 = k then some e.2 else Heap.lookup h k

/-- Largest reference in use (0 when empty). -/
def Heap.maxKey : Heap → Nat
  | [] => 0
  | e :: h => Nat.max e.1 (Heap.maxKey h)

/-- A reference not in use by any allocated array. -/
def Heap.fresh (h : Heap) : Nat := Heap.maxKey h + 1

/-- Overwrite the array stored at reference `k` (in-place numpy update). -/
def Heap.update : Heap → Nat → PixelArray → Heap
  | [], _, _ => []
  | e :: h, k, v => (if e.1 = k then (e.1, v) else e) :: Heap.update h k v

namespace Normalize

/-- `Normalize._minmax_helper` with explicit array identity: the input is a
reference `i` into the heap; `astype(np.float32).copy()` allocates a fresh
array `j`, and the three in-place updates (`-=`, `/=`, `*=`) write to `j`
only.  Returns the final heap and the reference of the result. -/
def minmax_helper_ref (h : Heap) (i : Nat) (bins : ℤ) : Except NormError (Heap × Nat) :=
  match Heap.lookup h i with
  | none => .error .danglingRef
  | some p =>
    match npMax p with
    | .error e => .error e
    | .ok max_val =>
      match npMin p with
      | .error e => .error e
      | .ok min_val =>
        let j := Heap.fresh h
        let a0 : PixelArray := ⟨DType.float32, p.shape, p.data⟩
        let h1 : Heap := (j, a0) :: h
        let a1 : PixelArray := ⟨DType.float32, p.shape, a0.data.map (fun v => fsub v min_val)⟩
        let h2 := Heap.update h1 j a1
        let a2 : PixelArray := ⟨DType.float32, p.shape, a1.data.map (fun v => fdiv v (fsubD p.dtype max_val min_val))⟩
        let h3 := Heap.update h2 j a2
        let a3 : PixelArray := ⟨DType.float32, p.shape, a2.data.map (fun v => fmul v (some ((bins : ℚ) - 1)))⟩
        let h4 := Heap.update h3 j a3
        .ok (h4, j)

end Normalize

/-- An image-like input holding references instead of array values. -/
inductive ImageLikeRef where
  | ndarray (r : Nat)
  | simpleNamespace (pixelsRef : Nat)
  | fileDataset (r : Nat)
  | other (typeName : String)

/-- The `images` argument of `extract_pixels`, reference version. -/
inductive ImagesRef where
  | single (i : ImageLikeRef)
  | list (l : List ImageLikeRef)

/-- The references (original arrays) held by one image-like input. -/
def ImageLikeRef.refs : ImageLikeRef → List Nat
  | .ndarray r => [r]
  | .simpleNamespace r => [r]
  | .fileDataset r => [r]
  | .other _ => []

/-- The references (original arrays) held by an `images` input. -/
def ImagesRef.refs : ImagesRef → List Nat
  | .single i => i.refs
  | .list l => l.flatMap ImageLikeRef.refs

namespace Normalize

/-- Per-element branch of `extract_pixels`, reference version: the loop
appends the array itself (its reference), never a copy. -/
def extractOneRef : ImageLikeRef → Except NormError Nat
  | .ndarray r => .ok r
  | .simpleNamespace r => .ok r
  | .fileDataset r => .ok r
  | .other t => .error (.unsupportedType t)

/-- The extraction loop over a list, reference version. -/
def extractListRef : List ImageLikeRef → Except NormError (List Nat)
  | [] => .ok []
  | i :: is =>
    match extractOneRef i with
    | .error e => .error e
    | .ok r =>
      match extractListRef is with
      | .error e => .error e
      | .ok rs => .ok (r :: rs)

/-- `Normalize.extract_pixels`, reference version: it takes no heap and
performs no writes — it only rearranges references into a fresh list. -/
def extract_pixels_ref : ImagesRef → Except NormError (List Nat)
  | .list l => extractListRef l
  | .single (.ndarray r) => .ok [r]
  | .single (.simpleNamespace r) => .ok [r]
  | .single (.fileDataset _) => .error (.unsupportedType "FileDataset")
  | .single (.other t) => .error (.unsupportedType t)

/-- The list comprehension of `Normalize.minmax`, reference version: each
element is normalized by `minmax_helper_ref`, threading the heap. -/
def mapHelperRef (bins : ℤ) : Heap → List Nat → Except NormError (Heap × List Nat)
  | h, [] => .ok (h, [])
  | h, i :: is =>
    match minmax_helper_ref h i bins with
    | .error e => .error e
    | .ok (h1, j) =>
      match mapHelperRef bins h1 is with
      | .error e => .error e
      | .ok (h2, js) => .ok (h2, j :: js)

/-- `Normalize.minmax` on a list of arrays (the path taken inside
`get_norm`), reference version. -/
def minmax_ref (h : Heap) (refs : List Nat) (bins : ℤ) :
    Except NormError (Heap × List Nat × Option Unit) :=
  match mapHelperRef bins h refs with
  | .error e => .error e
  | .ok (h1, js) => .ok (h1, js, none)

/-- The registry of `get_norm`, reference version. -/
def normRegistryRef (s : String) :
    Option (Heap → List Nat → ℤ → Except NormError (Heap × List Nat × Option Unit)) :=
  if s = "minmax" then some minmax_ref
  else if s = "min-max" then some minmax_ref
  else none

/-- `Normalize.get_norm`, reference version: extraction (which touches no
array), case-insensitive dispatch, then the normalization pass. -/
def get_norm_ref (h : Heap) (images : ImagesRef) (norm_type : String) (bins : ℤ) :
    Except NormError (Heap × List Nat × Option Unit) :=
  match extract_pixels_ref images with
  | .error e => .error e
  | .ok refs =>
    match normRegistryRef (pyLower norm_type) with
    | none => .error .invalidNormalizationType
    | some f =>
      match f h refs bins with
      | .error e => .error e
      | .ok (h1, js, _) => .ok (h1, js, none)

end Normalize

/-! ### Shared lemmas about folds over finite entries -/

theorem foldl_fmax_map_some (l : List ℚ) :
    ∀ q : ℚ, (l.map some).foldl fmax (some q) = some (l.foldl max q) := by
  induction l with
  | nil => intro q; rfl
  | cons x xs ih =>
    intro q
    simp only [List.map_cons, List.foldl_cons, fmax]
    exact ih (max q x)

theorem foldl_fmin_map_some (l : List ℚ) :
    ∀ q : ℚ, (l.map some).foldl fmin (some q) = some (l.foldl min q) := by
  induction l with
  | nil => intro q; rfl
  | cons x xs ih =>
    intro q
    simp only [List.map_cons, List.foldl_cons, fmin]
    exact ih (min q x)

theorem foldl_min_le_init (l : List ℚ) : ∀ q : ℚ, l.foldl min q ≤ q := by
  induction l with
  | nil => intro q; exact le_refl q
  | cons x xs ih =>
    intro q
    exact le_trans (ih (min q x)) (min_le_left q x)

theorem init_le_foldl_max (l : List ℚ) : ∀ q : ℚ, q ≤ l.foldl max q := by
  induction l with
  | nil => intro q; exact le_refl q
  | cons x xs ih =>
    intro q
    exact le_trans (le_max_left q x) (ih (max q x))

theorem foldl_max_map (f : ℚ → ℚ) (hf : Monotone f) (l : List ℚ) :
    ∀ q : ℚ, (l.map f).foldl max (f q) = f (l.foldl max q) := by
  induction l with
  | nil => intro q; rfl
  | cons x xs ih =>
    intro q
    simp only [List.map_cons, List.foldl_cons, ← hf.map_max]
    exact ih (max q x)

theorem foldl_min_map (f : ℚ → ℚ) (hf : Monotone f) (l : List ℚ) :
    ∀ q : ℚ, (l.map f).foldl min (f q) = f (l.foldl min q) := by
  induction l with
  | nil => intro q; rfl
  | cons x xs ih =>
    intro q
    simp only [List.map_cons, List.foldl_cons, ← hf.map_min]
    exact ih (min q x)

/-- The three elementwise passes of `_minmax_helper` on finite entries with
a nonzero divisor `D` compute the affine rescaling pointwise. -/
theorem rescale_maps (m D b : ℚ) (hD : ¬ (D = 0)) (l : List ℚ) :
    ((((l.map some).map (fun v => fsub v (some m))).map
        (fun v => fdiv v (some D))).map (fun v => fmul v (some b)))
      = (l.map (fun q => (q - m) / D * b)).map some := by
  induction l with
  | nil => rfl
  | cons x xs ih =>
    simp only [List.map_cons, fsub, fdiv, fmul, if_neg hD] at ih ⊢
    rw [ih]

/-- Symbolic evaluation of `_minmax_helper` on a nonempty array of finite
entries whose range is nonzero and whose dtype's scalar subtraction of the
min from the max does not overflow. -/
theorem minmax_helper_eval (dt : DType) (sh : List Nat) (q0 : ℚ) (qs : List ℚ) (bins : ℤ)
    (hw : DType.subWrap dt (qs.foldl max q0) (qs.foldl min q0) =
      qs.foldl max q0 - qs.foldl min q0)
    (hMm : ¬ (qs.foldl max q0 - qs.foldl min q0 = 0)) :
    Normalize.minmax_helper ⟨dt, sh, (q0 :: qs).map some⟩ bins =
      .ok ⟨DType.float32, sh,
        ((q0 :: qs).map (fun q =>
          (q - qs.foldl min q0) / (qs.foldl max q0 - qs.foldl min q0) * ((bins : ℚ) - 1))).map some⟩ := by
  have hmax : npMax ⟨dt, sh, (q0 :: qs).map some⟩ = .ok (some (qs.foldl max q0)) := by
    simp only [npMax, List.map_cons]
    rw [foldl_fmax_map_some]
  have hmin : npMin ⟨dt, sh, (q0 :: qs).map some⟩ = .ok (some (qs.foldl min q0)) := by
    simp only [npMin, List.map_cons]
    rw [foldl_fmin_map_some]
  simp only [Normalize.minmax_helper, hmax, hmin, fsubD, hw]
  rw [rescale_maps _ _ _ hMm]

theorem npMin_maps (dt : DType) (sh : List Nat) (f : ℚ → ℚ) (hf : Monotone f)
    (q0 : ℚ) (qs : List ℚ) :
    npMin ⟨dt, sh, ((q0 :: qs).map f).map some⟩ = .ok (some (f (qs.foldl min q0))) := by
  simp only [List.map_cons, npMin]
  rw [foldl_fmin_map_some, foldl_min_map f hf]

theorem npMax_maps (dt : DType) (sh : List Nat) (f : ℚ → ℚ) (hf : Monotone f)
    (q0 : ℚ) (qs : List ℚ) :
    npMax ⟨dt, sh, ((q0 :: qs).map f).map some⟩ = .ok (some (f (qs.foldl max q0))) := by
  simp only [List.map_cons, npMax]
  rw [foldl_fmax_map_some, foldl_max_map f hf]

theorem foldl_fmax_const (c : ℚ) : ∀ k : Nat, (List.replicate k (some c)).foldl fmax (some c) = some c := by
  intro k
  induction k with
  | zero => rfl
  | succ n ih =>
    simp only [List.replicate_succ, List.foldl_cons, fmax, max_self]
    exact ih

theorem foldl_fmin_const (c : ℚ) : ∀ k : Nat, (List.replicate k (some c)).foldl fmin (some c) = some c := by
  intro k
  induction k with
  | zero => rfl
  | succ n ih =>
    simp only [List.replicate_succ, List.foldl_cons, fmin, min_self]
    exact ih

theorem npMax_const (dt : DType) (sh : List Nat) (c : ℚ) (k : Nat) :
    npMax ⟨dt, sh, List.replicate (k + 1) (some c)⟩ = .ok (some c) := by
  simp only [npMax, List.replicate_succ]
  exact congrArg Except.ok (foldl_fmax_const c k)

theorem npMin_const (dt : DType) (sh : List Nat) (c : ℚ) (k : Nat) :
    npMin ⟨dt, sh, List.replicate (k + 1) (some c)⟩ = .ok (some c) := by
  simp only [npMin, List.replicate_succ]
  exact congrArg Except.ok (foldl_fmin_const c k)

/-- Subtracting a dtype scalar from itself never overflows: the result is
zero in every dtype. -/
theorem subWrap_self (dt : DType) (c : ℚ) : DType.subWrap dt c c = 0 := by
  cases dt <;> norm_num [DType.subWrap, intWrapS, intWrapU]

/-- On a constant array the divisor is zero (in every dtype) and every
entry of the result is non-finite. -/
theorem minmax_helper_const_eval (dt : DType) (sh : List Nat) (c : ℚ) (k : Nat) (bins : ℤ) :
    Normalize.minmax_helper ⟨dt, sh, List.replicate (k + 1) (some c)⟩ bins =
      .ok ⟨DType.float32, sh, List.replicate (k + 1) none⟩ := by
  simp only [Normalize.minmax_helper, npMax_const, npMin_const, List.map_replicate,
    fsub, fsubD, subWrap_self, fdiv, fmul, sub_self, if_pos]

/-! ### Concrete arrays and their evaluations -/

/-- The spec's concrete scenario input `A = [[0,10],[20,30]]`. -/
def A22 : PixelArray := ⟨DType.int64, [2, 2], [some 0, some 10, some 20, some 30]⟩

/-- The expected normalized output `[[0,85],[170,255]]`. -/
def A22n : PixelArray := ⟨DType.float32, [2, 2], [some 0, some 85, some 170, some 255]⟩

/-- A small non-constant 1-d array `[0, 1]`. -/
def A01 : PixelArray := ⟨DType.int64, [2], [some 0, some 1]⟩

theorem eval_A22 : Normalize.minmax_helper A22 256 = .ok A22n := by
  norm_num [A22, A22n, Normalize.minmax_helper, npMax, npMin, fmax, fmin, fsub, fsubD,
    DType.subWrap, intWrapS, fdiv, fmul, max_def, min_def]

theorem eval_A22_rows : Normalize.minmax (.array A22) 256 =
    .ok ([⟨DType.float32, [2], [some 0, some 255]⟩, ⟨DType.float32, [2], [some 0, some 255]⟩], none) := by
  norm_num [A22, Normalize.minmax, Normalize.iterate, Normalize.chunks, Normalize.mapHelper,
    Normalize.minmax_helper, npMax, npMin, fmax, fmin, fsub, fsubD, DType.subWrap, intWrapS,
    fdiv, fmul, max_def, min_def]

theorem eval_A01_bins1 : Normalize.minmax (.list [A01]) 1 =
    .ok ([⟨DType.float32, [2], [some 0, some 0]⟩], none) := by
  norm_num [A01, Normalize.minmax, Normalize.iterate, Normalize.mapHelper,
    Normalize.minmax_helper, npMax, npMin, fmax, fmin, fsub, fsubD, DType.subWrap, intWrapS,
    fdiv, fmul, max_def, min_def]

theorem eval_A01n_bins1 : Normalize.minmax (.list [⟨DType.float32, [2], [some 0, some 0]⟩]) 1 =
    .ok ([⟨DType.float32, [2], [none, none]⟩], none) := by
  norm_num [Normalize.minmax, Normalize.iterate, Normalize.mapHelper,
    Normalize.minmax_helper, npMax, npMin, fmax, fmin, fsub, fsubD, DType.subWrap,
    fdiv, fmul, max_def, min_def]

/-! ### Heap lemmas for the frame property -/

theorem lookup_update_ne (j k : Nat) (v : PixelArray) (hk : k ≠ j) :
    ∀ h : Heap, Heap.lookup (Heap.update h j v) k = Heap.lookup h k := by
  intro h
  induction h with
  | nil => rfl
  | cons e t ih =>
    simp only [Heap.update, Heap.lookup]
    by_cases he : e.1 = j
    · rw [if_pos he]
      simp only [Heap.lookup]
      rw [if_neg, if_neg, ih]
      · intro hek
        exact hk (hek ▸ he)
      · intro hek
        exact hk (hek ▸ he)
    · rw [if_neg he]
      simp only [Heap.lookup, ih]

theorem lookup_cons_ne (j k : Nat) (v : PixelArray) (h : Heap) (hk : k ≠ j) :
    Heap.lookup ((j, v) :: h) k = Heap.lookup h k := by
  simp only [Heap.lookup]
  rw [if_neg]
  intro hjk
  exact hk hjk.symm

theorem lookup_gt_maxKey (k : Nat) : ∀ h : Heap, Heap.maxKey h < k → Heap.lookup h k = none := by
  intro h
  induction h with
  | nil => intro _; rfl
  | cons e t ih =>
    intro hlt
    simp only [Heap.maxKey] at hlt
    have he : e.1 < k := lt_of_le_of_lt (le_max_left e.1 (Heap.maxKey t)) hlt
    have ht : Heap.maxKey t < k := lt_of_le_of_lt (le_max_right e.1 (Heap.maxKey t)) hlt
    simp only [Heap.lookup]
    rw [if_neg (Nat.ne_of_lt he), ih ht]

/-- A constant one-element array used as the frame-property witness. -/
def B5 : PixelArray := ⟨DType.uint8, [1], [some 5]⟩

/-- The heap after running the reference helper on `B5` stored at 0: the
fresh reference 1 holds the (all-NaN) result, 0 still holds `B5`. -/
def H4B5 : Heap := [(1, ⟨DType.float32, [1], [none]⟩), (0, B5)]

theorem eval_ref_B5 : Normalize.minmax_helper_ref [(0, B5)] 0 256 = .ok (H4B5, 1) := by
  norm_num [B5, H4B5, Normalize.minmax_helper_ref, Heap.lookup, Heap.fresh, Heap.maxKey,
    Heap.update, npMax, npMin, fmax, fmin, fsub, fsubD, DType.subWrap, intWrapU, fdiv, fmul]

/-! ### Claim theorems -/

/-- C5: on the concrete input `A = [[0,10],[20,30]]` with `bins = 256`,
min-max normalization returns `[[0,85],[170,255]]`, and that output is
exactly the pointwise rescaling `(v - 0) / (30 - 0) * 255` (exact here, so
certainly within floating-point rounding). -/
theorem minmax_helper_concrete_scenario :
    Normalize.minmax_helper A22 256 = .ok A22n ∧
    A22n.data = ([0, 10, 20, 30] : List ℚ).map (fun v => some ((v - 0) / (30 - 0) * 255)) := by
  refine ⟨eval_A22, ?_⟩
  norm_num [A22n]

/-- C8: a single non-list input that is neither an ndarray nor a
`SimpleNamespace` with a `pixels` field fails with the unsupported-type
error: this covers an unsupported scalar such as `42` (an `int`, modelled
by its type name) and a bare `FileDataset`, which is only accepted inside
a list. -/
theorem extract_pixels_single_unsupported :
    (∀ t : String, Normalize.extract_pixels (.single (.other t)) = .error (.unsupportedType t)) ∧
    (∀ d : PixelArray,
      Normalize.extract_pixels (.single (.fileDataset d)) = .error (.unsupportedType "FileDataset")) :=
  ⟨fun _ => rfl, fun _ => rfl⟩

/-- C6: `get_norm` dispatches identically for `"minmax"`, `"MinMax"`,
`"MIN-MAX"` and `"min-max"`: the lookup lowercases the name and both
registered keys map to the same `minmax` function. -/
theorem get_norm_case_insensitive (images : Images) (bins : ℤ) :
    Normalize.get_norm images "MinMax" bins = Normalize.get_norm images "minmax" bins ∧
    Normalize.get_norm images "MIN-MAX" bins = Normalize.get_norm images "minmax" bins ∧
    Normalize.get_norm images "min-max" bins = Normalize.get_norm images "minmax" bins :=
  ⟨rfl, rfl, rfl⟩

/-- C2: min-max normalization is not idempotent: with `bins = 1` on both
applications, the first pass sends `[0, 1]` to the constant array `[0, 0]`,
and the second pass divides by the zero range, so the results differ. -/
theorem minmax_not_idempotent :
    Except.bind (Normalize.minmax (.list [A01]) 1) (fun r => Normalize.minmax (.list r.1) 1) ≠
      Normalize.minmax (.list [A01]) 1 := by
  rw [eval_A01_bins1]
  show Normalize.minmax (.list [⟨DType.float32, [2], [some 0, some 0]⟩]) 1 ≠
    .ok ([⟨DType.float32, [2], [some 0, some 0]⟩], none)
  rw [eval_A01n_bins1]
  simp

/-- C10: called directly on a single multi-dimensional ndarray, `minmax`
iterates the first axis and normalizes each slice with that slice's own min
and max — equivalently, it behaves as on the list of first-axis slices; the
empty list yields `([], None)`; and on `[[0,10],[20,30]]` the result is not
the whole-array normalization. -/
theorem minmax_first_axis :
    (∀ (dt : DType) (d : Nat) (rest : List Nat) (data : List Flt) (bins : ℤ),
        Normalize.minmax (.array ⟨dt, d :: rest, data⟩) bins =
          Normalize.minmax
            (.list ((Normalize.chunks rest.prod d data).map (fun c => ⟨dt, rest, c⟩))) bins) ∧
    (∀ bins : ℤ, Normalize.minmax (.list []) bins = .ok ([], none)) ∧
    Normalize.minmax (.array A22) 256 ≠
      (Normalize.minmax_helper A22 256).map (fun r => ([r], none)) := by
  refine ⟨fun dt d rest data bins => rfl, fun bins => rfl, ?_⟩
  rw [eval_A22_rows, eval_A22]
  simp [Except.map]

/-- C3 counterexample: `get_norm` extracts pixels before looking up the
norm type, so on an unsupported input (`42`, an `int`) with the unknown
type `"bogus"` it fails with the unsupported-type error, not with the
invalid-normalization-type error the claim promises for every input. -/
theorem get_norm_bogus_unsupported_input :
    Normalize.get_norm (.single (.other "int")) "bogus" 256 = .error (.unsupportedType "int") ∧
    (Except.error (.unsupportedType "int") :
        Except NormError (List PixelArray × Option Unit)) ≠ .error .invalidNormalizationType :=
  ⟨rfl, by decide⟩

/-- C3 (amended): for every input whose pixel extraction succeeds, calling
`get_norm` with a norm type that is not a case-insensitive match of
`"minmax"` or `"min-max"` fails with the invalid-normalization-type
error. -/
theorem get_norm_invalid_norm_type (images : Images) (norm_type : String) (bins : ℤ)
    (ps : List PixelArray) (hok : Normalize.extract_pixels images = .ok ps)
    (h1 : pyLower norm_type ≠ "minmax") (h2 : pyLower norm_type ≠ "min-max") :
    Normalize.get_norm images norm_type bins = .error .invalidNormalizationType := by
  simp only [Normalize.get_norm, hok, Normalize.normRegistry, if_neg h1, if_neg h2]

theorem get_norm_invalid_norm_type_witness :
    Normalize.extract_pixels (.list []) = .ok [] ∧
    pyLower "bogus" ≠ "minmax" ∧ pyLower "bogus" ≠ "min-max" ∧
    Normalize.get_norm (.list []) "bogus" 256 = .error .invalidNormalizationType :=
  ⟨rfl, by decide, by decide,
    get_norm_invalid_norm_type (.list []) "bogus" 256 [] rfl (by decide) (by decide)⟩

/-- C1 counterexample: the claim as stated is false in the code.  On the
int16 array `[-32768, 32767]` with `bins = 256`, the divisor
`max_val - min_val` is computed in int16 and wraps to `-1`, so the result
is `[0, -16711425]`: its minimum is `-16711425`, not 0, and its maximum is
0, not 255. -/
theorem minmax_helper_int16_overflow :
    Normalize.minmax_helper ⟨DType.int16, [2], [some (-32768), some 32767]⟩ 256 =
      .ok ⟨DType.float32, [2], [some 0, some (-16711425)]⟩ ∧
    Except.bind (Normalize.minmax_helper ⟨DType.int16, [2], [some (-32768), some 32767]⟩ 256)
      npMin ≠ .ok (some 0) ∧
    Except.bind (Normalize.minmax_helper ⟨DType.int16, [2], [some (-32768), some 32767]⟩ 256)
      npMax ≠ .ok (some (((256 : ℤ) : ℚ) - 1)) := by
  have heval : Normalize.minmax_helper ⟨DType.int16, [2], [some (-32768), some 32767]⟩ 256 =
      .ok ⟨DType.float32, [2], [some 0, some (-16711425)]⟩ := by
    norm_num [Normalize.minmax_helper, npMax, npMin, fmax, fmin, fsub, fsubD,
      DType.subWrap, intWrapS, fdiv, fmul, max_def, min_def]
  refine ⟨heval, ?_, ?_⟩
  · rw [heval]
    simp [Except.bind, npMin, fmin, min_def]
  · rw [heval]
    simp [Except.bind, npMax, fmax, max_def]
    norm_num

/-- C1 (amended): on any nonempty array of finite entries whose min and
max differ, with any `bins > 1`, provided the scalar subtraction
`max_val - min_val` in the array's dtype does not overflow (it equals the
exact difference; always true for floating dtypes), `_minmax_helper`
succeeds and returns an array with minimum 0, maximum `bins - 1` (exact,
hence within floating-point tolerance), the input's shape, and the
floating-point dtype float32. -/
theorem minmax_helper_bounds (dt : DType) (sh : List Nat) (q0 : ℚ) (qs : List ℚ) (bins : ℤ)
    (hbins : 1 < bins) (hne : qs.foldl min q0 ≠ qs.foldl max q0)
    (hw : DType.subWrap dt (qs.foldl max q0) (qs.foldl min q0) =
      qs.foldl max q0 - qs.foldl min q0) :
    (Normalize.minmax_helper ⟨dt, sh, (q0 :: qs).map some⟩ bins).map PixelArray.shape = .ok sh ∧
    (Normalize.minmax_helper ⟨dt, sh, (q0 :: qs).map some⟩ bins).map PixelArray.dtype =
      .ok DType.float32 ∧
    Except.bind (Normalize.minmax_helper ⟨dt, sh, (q0 :: qs).map some⟩ bins) npMin =
      .ok (some 0) ∧
    Except.bind (Normalize.minmax_helper ⟨dt, sh, (q0 :: qs).map some⟩ bins) npMax =
      .ok (some ((bins : ℚ) - 1)) := by
  have hmM : qs.foldl min q0 ≤ qs.foldl max q0 :=
    le_trans (foldl_min_le_init qs q0) (init_le_foldl_max qs q0)
  have hlt : qs.foldl min q0 < qs.foldl max q0 := lt_of_le_of_ne hmM hne
  have hMm' : ¬ (qs.foldl max q0 - qs.foldl min q0 = 0) := by
    intro h0
    exact hne (by linarith)
  have hb : (0:ℚ) < (bins:ℚ) - 1 := by
    have h1 : (1:ℚ) < (bins:ℚ) := by exact_mod_cast hbins
    linarith
  have hmono : Monotone (fun q : ℚ =>
      (q - qs.foldl min q0) / (qs.foldl max q0 - qs.foldl min q0) * ((bins : ℚ) - 1)) := by
    intro a b hab
    have hMm : (0:ℚ) < qs.foldl max q0 - qs.foldl min q0 := by linarith
    have h1 : a - qs.foldl min q0 ≤ b - qs.foldl min q0 := by linarith
    have h2 : (a - qs.foldl min q0) / (qs.foldl max q0 - qs.foldl min q0) ≤
        (b - qs.foldl min q0) / (qs.foldl max q0 - qs.foldl min q0) := by gcongr
    exact mul_le_mul_of_nonneg_right h2 (le_of_lt hb)
  rw [minmax_helper_eval dt sh q0 qs bins hw hMm']
  refine ⟨rfl, rfl, ?_, ?_⟩
  · simp only [Except.bind]
    rw [npMin_maps DType.float32 sh _ hmono q0 qs]
    norm_num
  · simp only [Except.bind]
    rw [npMax_maps DType.float32 sh _ hmono q0 qs]
    norm_num [div_self hMm']

theorem minmax_helper_bounds_witness :
    (1 : ℤ) < 256 ∧
    (([10, 20, 30] : List ℚ).foldl min 0 ≠ ([10, 20, 30] : List ℚ).foldl max 0) ∧
    DType.subWrap DType.int64 (([10, 20, 30] : List ℚ).foldl max 0)
      (([10, 20, 30] : List ℚ).foldl min 0) =
      ([10, 20, 30] : List ℚ).foldl max 0 - ([10, 20, 30] : List ℚ).foldl min 0 ∧
    ((Normalize.minmax_helper ⟨DType.int64, [2, 2],
        (((0 : ℚ) :: [10, 20, 30]).map some)⟩ 256).map PixelArray.shape = .ok [2, 2] ∧
     (Normalize.minmax_helper ⟨DType.int64, [2, 2],
        (((0 : ℚ) :: [10, 20, 30]).map some)⟩ 256).map PixelArray.dtype = .ok DType.float32 ∧
     Except.bind (Normalize.minmax_helper ⟨DType.int64, [2, 2],
        (((0 : ℚ) :: [10, 20, 30]).map some)⟩ 256) npMin = .ok (some 0) ∧
     Except.bind (Normalize.minmax_helper ⟨DType.int64, [2, 2],
        (((0 : ℚ) :: [10, 20, 30]).map some)⟩ 256) npMax = .ok (some (((256 : ℤ) : ℚ) - 1))) :=
  ⟨by decide, by decide,
    by norm_num [DType.subWrap, intWrapS, max_def, min_def, List.foldl],
    minmax_helper_bounds DType.int64 [2, 2] 0 [10, 20, 30] 256 (by decide) (by decide)
      (by norm_num [DType.subWrap, intWrapS, max_def, min_def, List.foldl])⟩

/-- C4: on any constant-valued (nonempty) array, `_minmax_helper` computes
a zero divisor `max_val - min_val = 0` (both as exact subtraction and as
the dtype's scalar subtraction, which cannot overflow on `c - c`) and
still returns normally: every entry of the result is the non-finite value
(NaN/Inf) rather than a structured error. -/
theorem minmax_helper_zero_divisor (dt : DType) (sh : List Nat) (c : ℚ) (n : Nat) (bins : ℤ)
    (hn : n ≠ 0) :
    npMax ⟨dt, sh, List.replicate n (some c)⟩ = .ok (some c) ∧
    npMin ⟨dt, sh, List.replicate n (some c)⟩ = .ok (some c) ∧
    fsub (some c) (some c) = some 0 ∧
    fsubD dt (some c) (some c) = some 0 ∧
    Normalize.minmax_helper ⟨dt, sh, List.replicate n (some c)⟩ bins =
      .ok ⟨DType.float32, sh, List.replicate n none⟩ ∧
    List.replicate n (none : Flt) ≠ [] := by
  obtain ⟨k, rfl⟩ := Nat.exists_eq_succ_of_ne_zero hn
  refine ⟨npMax_const dt sh c k, npMin_const dt sh c k, ?_, ?_,
    minmax_helper_const_eval dt sh c k bins, ?_⟩
  · simp [fsub]
  · simp [fsubD, subWrap_self]
  · simp [List.replicate_succ]

theorem minmax_helper_zero_divisor_witness :
    (3 : Nat) ≠ 0 ∧
    (npMax ⟨DType.uint8, [3], List.replicate 3 (some 7)⟩ = .ok (some 7) ∧
     npMin ⟨DType.uint8, [3], List.replicate 3 (some 7)⟩ = .ok (some 7) ∧
     fsub (some 7) (some 7) = some 0 ∧
     fsubD DType.uint8 (some 7) (some 7) = some 0 ∧
     Normalize.minmax_helper ⟨DType.uint8, [3], List.replicate 3 (some 7)⟩ 256 =
       .ok ⟨DType.float32, [3], List.replicate 3 none⟩ ∧
     List.replicate 3 (none : Flt) ≠ []) :=
  ⟨by decide, minmax_helper_zero_divisor DType.uint8 [3] 7 3 256 (by decide)⟩

/-- C9: whenever `_minmax_helper` returns an array, that array's dtype is
exactly float32, whatever the input dtype was: the cast
`astype(np.float32)` happens before the rescaling arithmetic. -/
theorem minmax_helper_dtype_float32 (p : PixelArray) (bins : ℤ) (r : PixelArray)
    (h : Normalize.minmax_helper p bins = .ok r) : r.dtype = DType.float32 := by
  unfold Normalize.minmax_helper at h
  split at h
  · exact Except.noConfusion h
  · split at h
    · exact Except.noConfusion h
    · injection h with h2
      rw [← h2]

theorem minmax_helper_dtype_float32_witness : A22n.dtype = DType.float32 :=
  minmax_helper_dtype_float32 A22 256 A22n eval_A22

theorem extractListRef_map_ndarray :
    ∀ l : List Nat, Normalize.extractListRef (l.map ImageLikeRef.ndarray) = .ok l := by
  intro l
  induction l with
  | nil => rfl
  | cons x xs ih =>
    simp only [List.map_cons, Normalize.extractListRef, Normalize.extractOneRef, ih]

/-- `_minmax_helper` leaves every other reference unchanged and its result
reference was not previously allocated. -/
theorem minmax_helper_ref_frame (h : Heap) (i : Nat) (bins : ℤ) (h' : Heap) (j : Nat)
    (hok : Normalize.minmax_helper_ref h i bins = .ok (h', j)) :
    (∀ k : Nat, k ≠ j → Heap.lookup h' k = Heap.lookup h k) ∧ Heap.lookup h j = none := by
  unfold Normalize.minmax_helper_ref at hok
  split at hok
  · exact Except.noConfusion hok
  · split at hok
    · exact Except.noConfusion hok
    · split at hok
      · exact Except.noConfusion hok
      · injection hok with h2
        injection h2 with hh hj
        subst hh
        subst hj
        constructor
        · intro k hk
          rw [lookup_update_ne _ _ _ hk, lookup_update_ne _ _ _ hk, lookup_update_ne _ _ _ hk,
            lookup_cons_ne _ _ _ _ hk]
        · exact lookup_gt_maxKey _ h (Nat.lt_succ_self _)

/-- Every array allocated before a `_minmax_helper` call is intact after
it. -/
theorem minmax_helper_ref_preserves (h : Heap) (i : Nat) (bins : ℤ) (h' : Heap) (j : Nat)
    (hok : Normalize.minmax_helper_ref h i bins = .ok (h', j)) (k : Nat) (v : PixelArray)
    (hv : Heap.lookup h k = some v) : Heap.lookup h' k = some v := by
  obtain ⟨hframe, hnone⟩ := minmax_helper_ref_frame h i bins h' j hok
  have hk : k ≠ j := by
    intro he
    rw [he, hnone] at hv
    exact Option.noConfusion hv
  rw [hframe k hk]
  exact hv

/-- The normalization pass over a list of references preserves every array
allocated before it. -/
theorem mapHelperRef_frame (bins : ℤ) :
    ∀ (refs : List Nat) (h h' : Heap) (js : List Nat),
      Normalize.mapHelperRef bins h refs = .ok (h', js) →
      ∀ k v, Heap.lookup h k = some v → Heap.lookup h' k = some v := by
  intro refs
  induction refs with
  | nil =>
    intro h h' js hok k v hv
    simp only [Normalize.mapHelperRef] at hok
    injection hok with h2
    injection h2 with hh _
    rw [← hh]
    exact hv
  | cons i is ih =>
    intro h h' js hok k v hv
    simp only [Normalize.mapHelperRef] at hok
    split at hok
    · exact Except.noConfusion hok
    · rename_i h1 j heq1
      split at hok
      · exact Except.noConfusion hok
      · rename_i h2 js2 heq2
        injection hok with hp
        injection hp with hh _
        rw [← hh]
        exact ih h1 h2 js2 heq2 k v (minmax_helper_ref_preserves h i bins h1 j heq1 k v hv)

/-- `minmax` (list path) preserves every array allocated before it. -/
theorem minmax_ref_frame (h : Heap) (refs : List Nat) (bins : ℤ) (h' : Heap) (js : List Nat)
    (aux : Option Unit) (hok : Normalize.minmax_ref h refs bins = .ok (h', js, aux)) :
    ∀ k v, Heap.lookup h k = some v → Heap.lookup h' k = some v := by
  intro k v hv
  simp only [Normalize.minmax_ref] at hok
  split at hok
  · exact Except.noConfusion hok
  · rename_i h1 js1 heq
    injection hok with hp
    injection hp with hh _
    rw [← hh]
    exact mapHelperRef_frame bins refs h h1 js1 heq k v hv

/-- `get_norm` preserves every array allocated before it. -/
theorem get_norm_ref_frame (h : Heap) (images : ImagesRef) (norm_type : String) (bins : ℤ)
    (h' : Heap) (js : List Nat) (aux : Option Unit)
    (hok : Normalize.get_norm_ref h images norm_type bins = .ok (h', js, aux)) :
    ∀ k v, Heap.lookup h k = some v → Heap.lookup h' k = some v := by
  intro k v hv
  simp only [Normalize.get_norm_ref] at hok
  split at hok
  · exact Except.noConfusion hok
  · rename_i refs heq1
    split at hok
    · exact Except.noConfusion hok
    · rename_i f heq2
      unfold Normalize.normRegistryRef at heq2
      split at heq2
      · injection heq2 with hf
        subst hf
        split at hok
        · exact Except.noConfusion hok
        · rename_i h1 js1 aux1 heq3
          injection hok with hp
          injection hp with hh _
          rw [← hh]
          exact minmax_ref_frame h refs bins h1 js1 aux1 heq3 k v hv
      · split at heq2
        · injection heq2 with hf
          subst hf
          split at hok
          · exact Except.noConfusion hok
          · rename_i h1 js1 aux1 heq3
            injection hok with hp
            injection hp with hh _
            rw [← hh]
            exact minmax_ref_frame h refs bins h1 js1 aux1 heq3 k v hv
        · exact Option.noConfusion heq2

/-- Every reference returned by the extraction loop is one of the input's
references. -/
theorem extractListRef_shallow :
    ∀ (l : List ImageLikeRef) (rs : List Nat),
      Normalize.extractListRef l = .ok rs → ∀ r ∈ rs, r ∈ l.flatMap ImageLikeRef.refs := by
  intro l
  induction l with
  | nil =>
    intro rs hok r hr
    simp only [Normalize.extractListRef] at hok
    injection hok with h2
    subst h2
    exact absurd hr (List.not_mem_nil r)
  | cons i is ih =>
    intro rs hok r hr
    simp only [Normalize.extractListRef] at hok
    split at hok
    · exact Except.noConfusion hok
    · rename_i p heq1
      split at hok
      · exact Except.noConfusion hok
      · rename_i ps heq2
        injection hok with h2
        subst h2
        simp only [List.flatMap_cons, List.mem_append]
        rcases List.mem_cons.mp hr with h | h
        · left
          subst h
          cases i with
          | ndarray a =>
            injection heq1 with hp
            subst hp
            simp [ImageLikeRef.refs]
          | simpleNamespace a =>
            injection heq1 with hp
            subst hp
            simp [ImageLikeRef.refs]
          | fileDataset a =>
            injection heq1 with hp
            subst hp
            simp [ImageLikeRef.refs]
          | other t =>
            simp [Normalize.extractOneRef] at heq1
        · right
          exact ih ps heq2 r h

/-- Every reference returned by `extract_pixels` is one of the input's
references: the result is a shallow sequence over the original arrays. -/
theorem extract_pixels_ref_shallow :
    ∀ (images : ImagesRef) (rs : List Nat),
      Normalize.extract_pixels_ref images = .ok rs → ∀ r ∈ rs, r ∈ ImagesRef.refs images := by
  intro images rs hok r hr
  cases images with
  | list l => exact extractListRef_shallow l rs hok r hr
  | single i =>
    cases i with
    | ndarray a =>
      injection hok with h2
      subst h2
      simpa [ImagesRef.refs, ImageLikeRef.refs] using hr
    | simpleNamespace a =>
      injection hok with h2
      subst h2
      simpa [ImagesRef.refs, ImageLikeRef.refs] using hr
    | fileDataset a => exact Except.noConfusion hok
    | other t => exact Except.noConfusion hok

/-- `get_norm` on the heap `[(0, B5)]` with the single raw array `0`. -/
theorem eval_get_norm_ref_B5 :
    Normalize.get_norm_ref [(0, B5)] (.list [.ndarray 0]) "minmax" 256 = .ok (H4B5, [1], none) := by
  have hp : Normalize.normRegistryRef (pyLower "minmax") = some Normalize.minmax_ref := rfl
  simp only [Normalize.get_norm_ref, Normalize.extract_pixels_ref, Normalize.extractListRef,
    Normalize.extractOneRef, hp, Normalize.minmax_ref, Normalize.mapHelperRef, eval_ref_B5]

/-- C7: no operation mutates its input arrays.  In the reference-passing
embedding: `_minmax_helper` leaves every other reference unchanged and
writes only to a freshly allocated reference (the
`astype(np.float32).copy()` result); `minmax` and `get_norm` preserve
every array allocated before the call; `extract_pixels` performs no heap
write at all (it takes no heap) and returns a newly constructed list of
shallow references drawn from its input — in particular the very arrays
given, for a raw array, a `pixels` record, or a list of raw arrays. -/
theorem normalize_no_mutation :
    (∀ (h : Heap) (i : Nat) (bins : ℤ) (h' : Heap) (j : Nat),
        Normalize.minmax_helper_ref h i bins = .ok (h', j) →
          (∀ k : Nat, k ≠ j → Heap.lookup h' k = Heap.lookup h k) ∧ Heap.lookup h j = none) ∧
    (∀ (h : Heap) (refs : List Nat) (bins : ℤ) (h' : Heap) (js : List Nat) (aux : Option Unit),
        Normalize.minmax_ref h refs bins = .ok (h', js, aux) →
          ∀ k v, Heap.lookup h k = some v → Heap.lookup h' k = some v) ∧
    (∀ (h : Heap) (images : ImagesRef) (norm_type : String) (bins : ℤ) (h' : Heap)
        (js : List Nat) (aux : Option Unit),
        Normalize.get_norm_ref h images norm_type bins = .ok (h', js, aux) →
          ∀ k v, Heap.lookup h k = some v → Heap.lookup h' k = some v) ∧
    (∀ (images : ImagesRef) (rs : List Nat),
        Normalize.extract_pixels_ref images = .ok rs → ∀ r ∈ rs, r ∈ ImagesRef.refs images) ∧
    (∀ r : Nat, Normalize.extract_pixels_ref (.single (.ndarray r)) = .ok [r] ∧
        Normalize.extract_pixels_ref (.single (.simpleNamespace r)) = .ok [r]) ∧
    (∀ l : List Nat, Normalize.extract_pixels_ref (.list (l.map ImageLikeRef.ndarray)) = .ok l) :=
  ⟨minmax_helper_ref_frame, minmax_ref_frame, get_norm_ref_frame, extract_pixels_ref_shallow,
   fun _ => ⟨rfl, rfl⟩, extractListRef_map_ndarray⟩

theorem normalize_no_mutation_witness :
    Heap.lookup H4B5 0 = Heap.lookup [(0, B5)] 0 ∧ Heap.lookup [(0, B5)] 1 = none ∧
    Heap.lookup H4B5 0 = some B5 :=
  ⟨(normalize_no_mutation.1 [(0, B5)] 0 256 H4B5 1 eval_ref_B5).1 0 (by decide),
   (normalize_no_mutation.1 [(0, B5)] 0 256 H4B5 1 eval_ref_B5).2,
   normalize_no_mutation.2.2.1 [(0, B5)] (.list [.ndarray 0]) "minmax" 256 H4B5 [1] none
     eval_get_norm_ref_B5 0 B5 (by rfl)⟩
